import Mathlib

/-!
Shallow embedding of the BankChain core contracts:
`KYCRegistry`, `DepositToken` (BKD ledger token, OpenZeppelin ERC20 v5 `_update`
hook), `BankVault`, and `LendingPool`.

Solidity `uint256` values are modelled as `Nat` with explicit overflow checks
where the source uses checked arithmetic; a reverting call is modelled as
`Except.error`, and the EVM's transaction-level rollback is the `runE`
function, which keeps the pre-state on error.  `address` is an abstract type
`α` with decidable equality; `address(0)` (the ERC20 mint/burn endpoint) is
represented by `none : Option α`.
-/

section Model

variable {α : Type} [DecidableEq α]

/-- Errors raised by the four contracts (custom errors and `require` strings). -/
inductive Err (α : Type) where
  | InvalidCommitment
  | NoPendingRequest
  | Unauthorized
  | NotCompliant (user : α)
  | InsufficientBalance (user : α)
  | InsufficientAllowance (spender : α)
  | AmountZero
  | InsufficientCollateral
  | BorrowTooLarge
  | NoDebt
  | PayoutFailed
  | ParameterOutOfRange
  | Overflow
  | InsufficientValue
  deriving DecidableEq

/-- Run a state-transforming contract call with EVM rollback semantics:
a reverting (error) call leaves the state unchanged. -/
def runE {σ ε : Type} (op : σ → Except ε σ) (s : σ) : σ :=
  match op s with
  | .ok s' => s'
  | .error _ => s

/-- `true` iff the call did not revert. -/
def isOkE {σ ε : Type} : Except ε σ → Bool
  | .ok _ => true
  | .error _ => false

/-- `KYCRegistry.KYCInfo`: `{bool approved; uint8 level; uint64 expiresAt}`. -/
structure KYCInfo where
  approved : Bool
  level : Nat
  expiresAt : Nat
  deriving DecidableEq

/-- State of `KYCRegistry`: the `COMPLIANCE_ROLE` table, the private `_kyc`
mapping and the public `pendingKycHash` mapping (`bytes32` as `Nat`, `0` =
no pending request). -/
structure RegistryState (α : Type) where
  hasComplianceRole : α → Bool
  kyc : α → KYCInfo
  pendingKycHash : α → Nat

/-- `KYCRegistry.isKYCApproved`. -/
def isKYCApproved (reg : RegistryState α) (now : Nat) (user : α) : Bool :=
  let k := reg.kyc user
  if !k.approved then false
  else if k.expiresAt = 0 then true
  else decide (now ≤ k.expiresAt)

/-- `KYCRegistry.requestKYC` (caller publishes a pending commitment). -/
def KYCRegistry.requestKYC (caller : α) (kycHash : Nat) (reg : RegistryState α) :
    Except (Err α) (RegistryState α) :=
  if kycHash = 0 then .error .InvalidCommitment
  else .ok { reg with pendingKycHash := Function.update reg.pendingKycHash caller kycHash }

/-- `KYCRegistry.approveFromRequest`, including the `onlyComplianceApproved`
modifier (role check, then the caller's own KYC check). -/
def KYCRegistry.approveFromRequest (caller account : α) (level expiresAt now : Nat)
    (reg : RegistryState α) : Except (Err α) (RegistryState α) :=
  if !reg.hasComplianceRole caller then .error .Unauthorized
  else if !isKYCApproved reg now caller then .error (.NotCompliant caller)
  else if reg.pendingKycHash account = 0 then .error .NoPendingRequest
  else .ok { reg with
    kyc := Function.update reg.kyc account
      { approved := true, level := level, expiresAt := expiresAt },
    pendingKycHash := Function.update reg.pendingKycHash account 0 }

/-- `KYCRegistry.revokeKYC`, including the `onlyComplianceApproved` modifier. -/
def KYCRegistry.revokeKYC (caller account : α) (now : Nat)
    (reg : RegistryState α) : Except (Err α) (RegistryState α) :=
  if !reg.hasComplianceRole caller then .error .Unauthorized
  else if !isKYCApproved reg now caller then .error (.NotCompliant caller)
  else .ok { reg with
    kyc := Function.update reg.kyc account { reg.kyc account with approved := false } }

/-- State of `DepositToken` (ERC20 balances, total supply, allowances) together
with its `isSystemAddress` exemption map and `MINTER_ROLE` table. -/
structure TokenState (α : Type) where
  balances : α → Nat
  totalSupply : Nat
  allowance : α → α → Nat
  isSystemAddress : α → Bool
  hasMinterRole : α → Bool

/-- Initial (post-constructor) token state: no balances, zero supply. -/
def TokenState.init (sys minter : α → Bool) : TokenState α :=
  { balances := fun _ => 0
    totalSupply := 0
    allowance := fun _ _ => 0
    isSystemAddress := sys
    hasMinterRole := minter }

def UINT256_MAX : Nat := 2 ^ 256 - 1

/-- OpenZeppelin ERC20 v5 `_update(from, to, value)`: the mint leg uses checked
addition on `_totalSupply` (reverts on overflow); the debit leg reverts with
`ERC20InsufficientBalance` when the balance is too small; the remaining
additions/subtractions are the source's `unchecked` ones, which cannot wrap
under the conservation invariant. `none` plays `address(0)`. -/
def erc20Update (t : TokenState α) (src dst : Option α) (value : Nat) :
    Except (Err α) (TokenState α) :=
  let step1 : Except (Err α) (TokenState α) :=
    match src with
    | none =>
        if UINT256_MAX < t.totalSupply + value then .error .Overflow
        else .ok { t with totalSupply := t.totalSupply + value }
    | some f =>
        if t.balances f < value then .error (.InsufficientBalance f)
        else .ok { t with balances := Function.update t.balances f (t.balances f - value) }
  match step1 with
  | .error e => .error e
  | .ok t1 =>
      match dst with
      | none => .ok { t1 with totalSupply := t1.totalSupply - value }
      | some d => .ok { t1 with balances := Function.update t1.balances d (t1.balances d + value) }

/-- The balance map after debiting `v` from `src` and crediting it to `dst`
(the credit reads the already-debited map, as in `ERC20._update`). -/
def movedBalances (b : α → Nat) (src dst : α) (v : Nat) : α → Nat :=
  Function.update (Function.update b src (b src - v)) dst
    ((Function.update b src (b src - v)) dst + v)

/-- `DepositToken._update`: the KYC choke point applied uniformly to mint,
burn and transfer, then the ERC20 balance update. -/
def DepositToken.update (reg : RegistryState α) (now : Nat) (t : TokenState α)
    (src dst : Option α) (value : Nat) : Except (Err α) (TokenState α) :=
  match src, dst with
  | none, some d =>
      if !t.isSystemAddress d && !isKYCApproved reg now d then .error (.NotCompliant d)
      else erc20Update t none (some d) value
  | some f, none =>
      if !t.isSystemAddress f && !isKYCApproved reg now f then .error (.NotCompliant f)
      else erc20Update t (some f) none value
  | some f, some d =>
      if !t.isSystemAddress f && !isKYCApproved reg now f then .error (.NotCompliant f)
      else if !t.isSystemAddress d && !isKYCApproved reg now d then .error (.NotCompliant d)
      else erc20Update t (some f) (some d) value
  | none, none => erc20Update t none none value

/-- `DepositToken.mint` (guarded by `MINTER_ROLE`). -/
def DepositToken.mint (reg : RegistryState α) (now : Nat) (caller dst : α)
    (amount : Nat) (t : TokenState α) : Except (Err α) (TokenState α) :=
  if !t.hasMinterRole caller then .error .Unauthorized
  else DepositToken.update reg now t none (some dst) amount

/-- `DepositToken.burn` (guarded by `MINTER_ROLE`). -/
def DepositToken.burn (reg : RegistryState α) (now : Nat) (caller src : α)
    (amount : Nat) (t : TokenState α) : Except (Err α) (TokenState α) :=
  if !t.hasMinterRole caller then .error .Unauthorized
  else DepositToken.update reg now t (some src) none amount

/-- `ERC20.transfer` as inherited by `DepositToken` (holder-invoked). -/
def DepositToken.transfer (reg : RegistryState α) (now : Nat) (caller dst : α)
    (amount : Nat) (t : TokenState α) : Except (Err α) (TokenState α) :=
  DepositToken.update reg now t (some caller) (some dst) amount

/-- `ERC20.transferFrom` as inherited by `DepositToken`:
`_spendAllowance(owner, spender, value)` (infinite allowance is not
decremented) followed by the transfer. -/
def DepositToken.transferFrom (reg : RegistryState α) (now : Nat)
    (spender owner dst : α) (amount : Nat) (t : TokenState α) :
    Except (Err α) (TokenState α) :=
  let al := t.allowance owner spender
  if al = UINT256_MAX then DepositToken.update reg now t (some owner) (some dst) amount
  else if al < amount then .error (.InsufficientAllowance spender)
  else
    let t1 := { t with
      allowance := Function.update t.allowance owner
        (Function.update (t.allowance owner) spender (al - amount)) }
    DepositToken.update reg now t1 (some owner) (some dst) amount

/-- The three externally reachable balance-changing operations of the token. -/
inductive TokenOp (α : Type) where
  | mint (caller dst : α) (amount : Nat)
  | burn (caller src : α) (amount : Nat)
  | transfer (caller dst : α) (amount : Nat)

def applyTokenOp (reg : RegistryState α) (now : Nat) (op : TokenOp α)
    (t : TokenState α) : Except (Err α) (TokenState α) :=
  match op with
  | .mint c d v => DepositToken.mint reg now c d v t
  | .burn c s v => DepositToken.burn reg now c s v t
  | .transfer c d v => DepositToken.transfer reg now c d v t

/-- One transaction: a failed (reverting) operation leaves the state as it was. -/
def stepTokenOp (reg : RegistryState α) (now : Nat) (op : TokenOp α)
    (t : TokenState α) : TokenState α :=
  runE (applyTokenOp reg now op) t

/-- A serialized sequence of token transactions, each with its own registry
snapshot and timestamp. -/
def runTokenOps (ops : List (RegistryState α × Nat × TokenOp α))
    (t : TokenState α) : TokenState α :=
  ops.foldl (fun s e => stepTokenOp e.1 e.2.1 e.2.2 s) t

/-- `LendingPool.Account`: `{uint256 collateral; uint256 debt; uint256 lastAccrued}`. -/
structure PoolAccount where
  collateral : Nat
  debt : Nat
  lastAccrued : Nat
  deriving DecidableEq

/-- State of `LendingPool`: risk parameters, per-user accounts, `RISK_ROLE`. -/
structure PoolState (α : Type) where
  maxLTVBps : Nat
  annualRateBps : Nat
  accounts : α → PoolAccount
  hasRiskRole : α → Bool

/-- Solidity `365 days` in seconds. -/
def secondsPerYear : Nat := 365 * 86400

/-- `LendingPool._accrue` acting on one account record:
zero debt just stamps `lastAccrued`; zero elapsed time is a no-op; otherwise
`interest = debt * annualRateBps * dt / (10000 * 365 days)` (truncating
division) is folded into the debt. -/
def accrueAccount (annualRateBps now : Nat) (a : PoolAccount) : PoolAccount :=
  if a.debt = 0 then { a with lastAccrued := now }
  else
    let dt := now - a.lastAccrued
    if dt = 0 then a
    else
      let interest := a.debt * annualRateBps * dt / (10000 * secondsPerYear)
      { a with debt := a.debt + interest, lastAccrued := now }

/-- `LendingPool.setParams` (guarded by `RISK_ROLE`, range-checked). -/
def LendingPool.setParams (caller : α) (newMaxLTVBps newAnnualRateBps : Nat)
    (p : PoolState α) : Except (Err α) (PoolState α) :=
  if !p.hasRiskRole caller then .error .Unauthorized
  else if 9000 < newMaxLTVBps then .error .ParameterOutOfRange
  else if 5000 < newAnnualRateBps then .error .ParameterOutOfRange
  else .ok { p with maxLTVBps := newMaxLTVBps, annualRateBps := newAnnualRateBps }

/-- `LendingPool.borrow`: KYC gate, zero-amount check, accrual, LTV headroom
check, debt increase, then a token transfer from the pool's reserves to the
caller (`poolAddr` is `address(this)`). -/
def LendingPool.borrow (reg : RegistryState α) (now : Nat) (poolAddr caller : α)
    (amount : Nat) (t : TokenState α) (p : PoolState α) :
    Except (Err α) (TokenState α × PoolState α) :=
  if !isKYCApproved reg now caller then .error (.NotCompliant caller)
  else if amount = 0 then .error .AmountZero
  else
    let a := accrueAccount p.annualRateBps now (p.accounts caller)
    let maxDebtAllowed := a.collateral * p.maxLTVBps / 10000
    if maxDebtAllowed < a.debt + amount then .error .BorrowTooLarge
    else
      let a' := { a with debt := a.debt + amount }
      let p' := { p with accounts := Function.update p.accounts caller a' }
      match DepositToken.transfer reg now poolAddr caller amount t with
      | .error e => .error e
      | .ok t' => .ok (t', p')

/-- `LendingPool.withdrawCollateral`: KYC gate, zero-amount check, accrual,
collateral sufficiency, post-withdrawal LTV check, then the collateral is
returned from the pool to the caller. -/
def LendingPool.withdrawCollateral (reg : RegistryState α) (now : Nat)
    (poolAddr caller : α) (amount : Nat) (t : TokenState α) (p : PoolState α) :
    Except (Err α) (TokenState α × PoolState α) :=
  if !isKYCApproved reg now caller then .error (.NotCompliant caller)
  else if amount = 0 then .error .AmountZero
  else
    let a := accrueAccount p.annualRateBps now (p.accounts caller)
    if a.collateral < amount then .error .InsufficientCollateral
    else
      let newCollateral := a.collateral - amount
      let maxDebtAllowed := newCollateral * p.maxLTVBps / 10000
      if maxDebtAllowed < a.debt then .error .InsufficientCollateral
      else
        let a' := { a with collateral := newCollateral }
        let p' := { p with accounts := Function.update p.accounts caller a' }
        match DepositToken.transfer reg now poolAddr caller amount t with
        | .error e => .error e
        | .ok t' => .ok (t', p')

/-- `LendingPool.repay`: KYC gate, zero-amount check, accrual, `No debt`
check, pull of `amount` from the caller; full repayment zeroes the debt,
stamps `lastAccrued` and refunds the overpayment, partial repayment just
decrements the debt. -/
def LendingPool.repay (reg : RegistryState α) (now : Nat) (poolAddr caller : α)
    (amount : Nat) (t : TokenState α) (p : PoolState α) :
    Except (Err α) (TokenState α × PoolState α) :=
  if !isKYCApproved reg now caller then .error (.NotCompliant caller)
  else if amount = 0 then .error .AmountZero
  else
    let a := accrueAccount p.annualRateBps now (p.accounts caller)
    if a.debt = 0 then .error .NoDebt
    else
      match DepositToken.transferFrom reg now poolAddr caller poolAddr amount t with
      | .error e => .error e
      | .ok t1 =>
          if a.debt ≤ amount then
            let over := amount - a.debt
            let a' := { a with debt := 0, lastAccrued := now }
            let p' := { p with accounts := Function.update p.accounts caller a' }
            if 0 < over then
              match DepositToken.transfer reg now poolAddr caller over t1 with
              | .error e => .error e
              | .ok t2 => .ok (t2, p')
            else .ok (t1, p')
          else
            let a' := { a with debt := a.debt - amount }
            .ok (t1, { p with accounts := Function.update p.accounts caller a' })

/-- The committed effect of a pool transaction: on revert the pre-state stays. -/
def stepPool (r : Except (Err α) (TokenState α × PoolState α))
    (t : TokenState α) (p : PoolState α) : TokenState α × PoolState α :=
  match r with
  | .ok x => x
  | .error _ => (t, p)

/-- State touched by `BankVault`: the token plus external (ETH) balances of
user accounts and of the vault itself. -/
structure VaultWorld (α : Type) where
  tok : TokenState α
  eth : α → Nat
  vaultEth : Nat

/-- `BankVault.deposit` (payable): the caller's ETH moves to the vault with
the call itself, then KYC gate, zero-value check, and a 1:1 mint of BKD. -/
def BankVault.deposit (reg : RegistryState α) (now : Nat) (vaultAddr caller : α)
    (msgValue : Nat) (w : VaultWorld α) : Except (Err α) (VaultWorld α) :=
  if w.eth caller < msgValue then .error .InsufficientValue
  else
    let w1 := { w with
      eth := Function.update w.eth caller (w.eth caller - msgValue)
      vaultEth := w.vaultEth + msgValue }
    if !isKYCApproved reg now caller then .error (.NotCompliant caller)
    else if msgValue = 0 then .error .AmountZero
    else
      match DepositToken.mint reg now vaultAddr caller msgValue w1.tok with
      | .error e => .error e
      | .ok t' => .ok { w1 with tok := t' }

/-- `BankVault.withdraw`: KYC gate, zero-amount check, burn of `amount` BKD,
then the ETH payout via a low-level call; `payoutOk` is the recipient's
willingness to accept the call, and a payout with more value than the vault
holds also returns `ok = false`.  A failed payout reverts the whole call
(`require(ok, "ETH transfer failed")`). -/
def BankVault.withdraw (reg : RegistryState α) (now : Nat) (vaultAddr caller : α)
    (amount : Nat) (payoutOk : Bool) (w : VaultWorld α) :
    Except (Err α) (VaultWorld α) :=
  if !isKYCApproved reg now caller then .error (.NotCompliant caller)
  else if amount = 0 then .error .AmountZero
  else
    match DepositToken.burn reg now vaultAddr caller amount w.tok with
    | .error e => .error e
    | .ok t' =>
        if payoutOk && decide (amount ≤ w.vaultEth) then
          .ok { tok := t'
                eth := Function.update w.eth caller (w.eth caller + amount)
                vaultEth := w.vaultEth - amount }
        else .error .PayoutFailed

/-- Deposit `X` then immediately withdraw `X` (committed states). -/
def roundTrip (reg : RegistryState α) (now : Nat) (vaultAddr caller : α)
    (X : Nat) (w : VaultWorld α) : VaultWorld α :=
  runE (BankVault.withdraw reg now vaultAddr caller X true)
    (runE (BankVault.deposit reg now vaultAddr caller X) w)

end Model

section ConcreteStates

/-- Concrete registry over three addresses: `0` a KYC-approved user, `1` the
pool / vault contract address (not individually approved, has a pending
commitment), `2` a KYC-approved compliance officer. -/
def reg3 : RegistryState (Fin 3) :=
  { hasComplianceRole := fun a => decide (a = 2)
    kyc := fun a =>
      if a = 0 ∨ a = 2 then { approved := true, level := 1, expiresAt := 0 }
      else { approved := false, level := 0, expiresAt := 0 }
    pendingKycHash := fun a => if a = 1 then 7 else 0 }

/-- `reg3` after account `1` is approved at level `3` with no expiry. -/
def regA3 : RegistryState (Fin 3) :=
  { reg3 with
    kyc := Function.update reg3.kyc 1 { approved := true, level := 3, expiresAt := 0 }
    pendingKycHash := Function.update reg3.pendingKycHash 1 0 }

/-- `reg3` after account `0` is revoked. -/
def regR3 : RegistryState (Fin 3) :=
  { reg3 with
    kyc := Function.update reg3.kyc 0 { reg3.kyc 0 with approved := false } }

/-- Concrete token state: user `0` holds 100, the pool/vault address `1` is a
system address holding the 1000-unit reserve and the minter role; user `0`
has approved the pool for 500. -/
def tok3 : TokenState (Fin 3) :=
  { balances := fun a => if a = 0 then 100 else if a = 1 then 1000 else 0
    totalSupply := 1100
    allowance := fun o s => if o = 0 ∧ s = 1 then 500 else 0
    isSystemAddress := fun a => decide (a = 1)
    hasMinterRole := fun a => decide (a = 1) }

/-- Concrete pool state: user `0` pledged 50 collateral, no debt yet;
address `2` holds the risk role. -/
def pool3 : PoolState (Fin 3) :=
  { maxLTVBps := 5000
    annualRateBps := 800
    accounts := fun a =>
      if a = 0 then { collateral := 50, debt := 0, lastAccrued := 0 }
      else { collateral := 0, debt := 0, lastAccrued := 0 }
    hasRiskRole := fun a => decide (a = 2) }

/-- `pool3` with an outstanding debt of 20 for user `0`. -/
def pool3b : PoolState (Fin 3) :=
  { pool3 with accounts := fun a =>
      if a = 0 then { collateral := 50, debt := 20, lastAccrued := 0 }
      else { collateral := 0, debt := 0, lastAccrued := 0 } }

/-- `pool3b` after the risk parameters are changed to 60% LTV, 10% APR. -/
def pool3p : PoolState (Fin 3) :=
  { pool3b with maxLTVBps := 6000, annualRateBps := 1000 }

/-- Concrete vault world around `tok3`: user `0` holds 500 wei, vault 40 wei. -/
def w3 : VaultWorld (Fin 3) :=
  { tok := tok3
    eth := fun a => if a = 0 then 500 else 0
    vaultEth := 40 }

/-- A registry in which nobody is compliant and nobody holds any role. -/
def regNC : RegistryState (Fin 2) :=
  { hasComplianceRole := fun _ => false
    kyc := fun _ => { approved := false, level := 0, expiresAt := 0 }
    pendingKycHash := fun _ => 0 }

/-- A token state in which no account is a system address; `0` is a minter. -/
def tokNC : TokenState (Fin 2) :=
  { balances := fun _ => 10
    totalSupply := 20
    allowance := fun _ _ => 0
    isSystemAddress := fun _ => false
    hasMinterRole := fun a => decide (a = 0) }

end ConcreteStates

section Conservation

variable {α : Type} [DecidableEq α] [Fintype α]

theorem sum_update_add (f : α → Nat) (a : α) (v : Nat) :
    (∑ i, Function.update f a (f a + v) i) = (∑ i, f i) + v := by
  rw [Finset.sum_update_of_mem (Finset.mem_univ a)]
  rw [Finset.sum_eq_sum_diff_singleton_add (Finset.mem_univ a) f]
  omega

theorem sum_update_sub (f : α → Nat) (a : α) (v : Nat) (h : v ≤ f a) :
    (∑ i, Function.update f a (f a - v) i) = (∑ i, f i) - v := by
  rw [Finset.sum_update_of_mem (Finset.mem_univ a)]
  rw [Finset.sum_eq_sum_diff_singleton_add (Finset.mem_univ a) f]
  omega

omit [DecidableEq α] in
theorem balance_le_sum (f : α → Nat) (a : α) : f a ≤ ∑ i, f i :=
  Finset.single_le_sum (fun i _ => Nat.zero_le (f i)) (Finset.mem_univ a)

theorem conserved_erc20Update {t t' : TokenState α} {src dst : Option α} {v : Nat}
    (hE : erc20Update t src dst v = .ok t')
    (h : (∑ i, t.balances i) = t.totalSupply) :
    (∑ i, t'.balances i) = t'.totalSupply := by
  unfold erc20Update at hE
  cases src with
  | none =>
      dsimp only at hE
      split at hE
      · exact Except.noConfusion hE
      · rename_i t1 heq
        split at heq
        · exact Except.noConfusion heq
        · injection heq with heq1
          subst heq1
          cases dst with
          | none =>
              injection hE with h1
              subst h1
              dsimp only
              omega
          | some d =>
              injection hE with h1
              subst h1
              dsimp only
              rw [sum_update_add]
              omega
  | some f =>
      dsimp only at hE
      split at hE
      · exact Except.noConfusion hE
      · rename_i t1 heq
        split at heq
        · exact Except.noConfusion heq
        · rename_i hguard
          injection heq with heq1
          subst heq1
          have hle : v ≤ t.balances f := by omega
          cases dst with
          | none =>
              injection hE with h1
              subst h1
              dsimp only
              rw [sum_update_sub t.balances f v hle]
              omega
          | some d =>
              injection hE with h1
              subst h1
              have hsum : v ≤ ∑ i, t.balances i :=
                le_trans hle (balance_le_sum t.balances f)
              dsimp only
              rw [sum_update_add (Function.update t.balances f (t.balances f - v)) d]
              rw [sum_update_sub t.balances f v hle]
              omega

theorem conserved_DepositTokenUpdate {reg : RegistryState α} {now : Nat}
    {t t' : TokenState α} {src dst : Option α} {v : Nat}
    (hE : DepositToken.update reg now t src dst v = .ok t')
    (h : (∑ i, t.balances i) = t.totalSupply) :
    (∑ i, t'.balances i) = t'.totalSupply := by
  unfold DepositToken.update at hE
  cases src <;> cases dst <;> dsimp only at hE
  · exact conserved_erc20Update hE h
  all_goals
    first
    | (split at hE
       · exact Except.noConfusion hE
       · exact conserved_erc20Update hE h)
    | (split at hE
       · exact Except.noConfusion hE
       · split at hE
         · exact Except.noConfusion hE
         · exact conserved_erc20Update hE h)

theorem conserved_stepTokenOp (reg : RegistryState α) (now : Nat)
    (op : TokenOp α) (t : TokenState α)
    (h : (∑ i, t.balances i) = t.totalSupply) :
    (∑ i, (stepTokenOp reg now op t).balances i) =
      (stepTokenOp reg now op t).totalSupply := by
  simp only [stepTokenOp, runE]
  rcases hE : applyTokenOp reg now op t with e | t'
  · exact h
  · cases op with
    | mint c d v =>
        simp only [applyTokenOp, DepositToken.mint] at hE
        split at hE
        · exact Except.noConfusion hE
        · exact conserved_DepositTokenUpdate hE h
    | burn c s v =>
        simp only [applyTokenOp, DepositToken.burn] at hE
        split at hE
        · exact Except.noConfusion hE
        · exact conserved_DepositTokenUpdate hE h
    | transfer c d v =>
        simp only [applyTokenOp, DepositToken.transfer] at hE
        exact conserved_DepositTokenUpdate hE h

/-- C2: starting from the empty token state, after every finite sequence of
mint/burn/transfer transactions (each committed only when it does not
revert) the sum of all balances equals `totalSupply`, and every balance is
non-negative. -/
theorem C2_conservation (sys minter : α → Bool)
    (ops : List (RegistryState α × Nat × TokenOp α)) :
    (∑ i, (runTokenOps ops (TokenState.init sys minter)).balances i) =
      (runTokenOps ops (TokenState.init sys minter)).totalSupply ∧
    ∀ a, 0 ≤ (((runTokenOps ops (TokenState.init sys minter)).balances a : Int)) := by
  refine ⟨?_, fun a => Int.natCast_nonneg _⟩
  have main : ∀ (l : List (RegistryState α × Nat × TokenOp α)) (t : TokenState α),
      (∑ i, t.balances i) = t.totalSupply →
      (∑ i, (runTokenOps l t).balances i) = (runTokenOps l t).totalSupply := by
    intro l
    induction l with
    | nil => intro t h; exact h
    | cons e l ih =>
        intro t h
        exact ih _ (conserved_stepTokenOp e.1 e.2.1 e.2.2 t h)
  exact main ops _ (by simp [TokenState.init])

end Conservation

section RegistryClaims

variable {α : Type} [DecidableEq α]

/-- C7: `approveFromRequest` succeeds only when a non-zero pending commitment
exists for the account; on success it writes the compliance record and clears
the pending commitment, so a second `approve` on the same account — by any
still-authorized officer — fails with `NoPendingRequest` and commits no state
change. -/
theorem C7_approve_consumes_pending (reg : RegistryState α) (now : Nat)
    (caller account : α) (level expiresAt : Nat)
    (hrole : reg.hasComplianceRole caller = true)
    (hkyc : isKYCApproved reg now caller = true)
    (regA : RegistryState α)
    (hregA : regA = { reg with
      kyc := Function.update reg.kyc account
        { approved := true, level := level, expiresAt := expiresAt }
      pendingKycHash := Function.update reg.pendingKycHash account 0 }) :
    (reg.pendingKycHash account = 0 →
      KYCRegistry.approveFromRequest caller account level expiresAt now reg =
        .error .NoPendingRequest) ∧
    (reg.pendingKycHash account ≠ 0 →
      KYCRegistry.approveFromRequest caller account level expiresAt now reg = .ok regA ∧
      regA.kyc account = { approved := true, level := level, expiresAt := expiresAt } ∧
      regA.pendingKycHash account = 0 ∧
      ∀ (c2 : α) (l2 e2 now2 : Nat),
        regA.hasComplianceRole c2 = true → isKYCApproved regA now2 c2 = true →
        KYCRegistry.approveFromRequest c2 account l2 e2 now2 regA =
          .error .NoPendingRequest ∧
        runE (KYCRegistry.approveFromRequest c2 account l2 e2 now2) regA = regA) := by
  have hpend0 : regA.pendingKycHash account = 0 := by
    rw [hregA]; simp [Function.update_same]
  constructor
  · intro hz
    simp [KYCRegistry.approveFromRequest, hrole, hkyc, hz]
  · intro hnz
    have happ : KYCRegistry.approveFromRequest caller account level expiresAt now reg =
        .ok regA := by
      rw [hregA]
      simp [KYCRegistry.approveFromRequest, hrole, hkyc, hnz]
    refine ⟨happ, ?_, hpend0, ?_⟩
    · rw [hregA]; simp [Function.update_same]
    · intro c2 l2 e2 now2 hrole2 hkyc2
      have herr : KYCRegistry.approveFromRequest c2 account l2 e2 now2 regA =
          .error .NoPendingRequest := by
        simp [KYCRegistry.approveFromRequest, hrole2, hkyc2, hpend0]
      exact ⟨herr, by simp [runE, herr]⟩

/-- C7 witness: in `reg3`, officer `2` approves pending account `1`; the first
call succeeds and the immediate second call fails with `NoPendingRequest`. -/
theorem C7_witness :
    reg3.hasComplianceRole 2 = true ∧ isKYCApproved reg3 0 2 = true ∧
    reg3.pendingKycHash 1 ≠ 0 ∧
    KYCRegistry.approveFromRequest 2 1 3 0 0 reg3 = .ok regA3 ∧
    KYCRegistry.approveFromRequest 2 1 3 0 0 regA3 = .error .NoPendingRequest := by
  have h := C7_approve_consumes_pending reg3 0 2 1 3 0 (by decide) (by decide) regA3 rfl
  have h2 := h.2 (by decide)
  exact ⟨by decide, by decide, by decide, h2.1,
    (h2.2.2.2 2 3 0 0 (by decide) (by decide)).1⟩

/-- C8: a successful `revokeKYC` clears only the `approved` flag of the target
account — `isKYCApproved` becomes false at every timestamp — while the stored
level and expiry, the pending-commitment table, the role table, and every
other account's record are untouched. -/
theorem C8_revoke_frame (reg : RegistryState α) (now : Nat) (caller account : α)
    (hrole : reg.hasComplianceRole caller = true)
    (hkyc : isKYCApproved reg now caller = true)
    (regR : RegistryState α)
    (hregR : regR = { reg with
      kyc := Function.update reg.kyc account { reg.kyc account with approved := false } }) :
    KYCRegistry.revokeKYC caller account now reg = .ok regR ∧
    (∀ now2, isKYCApproved regR now2 account = false) ∧
    (regR.kyc account).level = (reg.kyc account).level ∧
    (regR.kyc account).expiresAt = (reg.kyc account).expiresAt ∧
    regR.pendingKycHash = reg.pendingKycHash ∧
    regR.hasComplianceRole = reg.hasComplianceRole ∧
    ∀ b, b ≠ account → regR.kyc b = reg.kyc b := by
  subst hregR
  refine ⟨by simp [KYCRegistry.revokeKYC, hrole, hkyc], ?_, ?_, ?_, rfl, rfl, ?_⟩
  · intro now2
    simp [isKYCApproved, Function.update_same]
  · simp [Function.update_same]
  · simp [Function.update_same]
  · intro b hb
    simp [Function.update_noteq hb]

/-- C8 witness: officer `2` revokes the approved account `0` in `reg3`. -/
theorem C8_witness :
    reg3.hasComplianceRole 2 = true ∧ isKYCApproved reg3 0 2 = true ∧
    KYCRegistry.revokeKYC 2 0 0 reg3 = .ok regR3 ∧
    isKYCApproved regR3 5 0 = false ∧
    (regR3.kyc 0).level = (reg3.kyc 0).level ∧
    regR3.pendingKycHash = reg3.pendingKycHash := by
  have h := C8_revoke_frame reg3 0 2 0 (by decide) (by decide) regR3 rfl
  exact ⟨by decide, by decide, h.1, h.2.1 5, h.2.2.1, h.2.2.2.2.1⟩

end RegistryClaims

section AccrualClaims

theorem accrue_debt_mono (rate now : Nat) (a : PoolAccount) :
    a.debt ≤ (accrueAccount rate now a).debt := by
  unfold accrueAccount
  split
  · exact Nat.le_refl _
  · dsimp only
    split
    · exact Nat.le_refl _
    · exact Nat.le_add_right _ _

/-- C3 counterexample: an account with `debt = 1`, `annualRate = 800` bps and
one elapsed second has `dt > 0` and `debt > 0`, yet the truncating division
makes the interest zero, so `accrue` does NOT strictly increase the debt. -/
theorem C3_counterexample :
    (accrueAccount 800 1 { collateral := 0, debt := 1, lastAccrued := 0 }).debt = 1 ∧
    ¬ 1 < (accrueAccount 800 1 { collateral := 0, debt := 1, lastAccrued := 0 }).debt ∧
    0 < 1 - (0 : Nat) ∧ (0 : Nat) < 1 ∧ (0 : Nat) < 800 := by decide

/-- C3 (amended): `accrue` never decreases the debt across any sequence of
calls, and it strictly increases the debt exactly when the truncated interest
is non-zero, i.e. when `debt * annualRate * dt ≥ 10000 * secondsPerYear`. -/
theorem C3_accrual_monotone (rate : Nat) (a : PoolAccount) :
    (∀ ts : List Nat,
      a.debt ≤ (ts.foldl (fun acc t => accrueAccount rate t acc) a).debt) ∧
    (∀ t, 10000 * secondsPerYear ≤ a.debt * rate * (t - a.lastAccrued) →
      a.debt < (accrueAccount rate t a).debt) := by
  constructor
  · intro ts
    induction ts generalizing a with
    | nil => exact Nat.le_refl _
    | cons t ts ih =>
        exact le_trans (accrue_debt_mono rate t a) (ih _)
  · intro t hbig
    have hyear : 0 < 10000 * secondsPerYear := by decide
    have hd : ¬ a.debt = 0 := by
      intro h0
      rw [h0] at hbig
      simp at hbig
      omega
    have hdt : ¬ t - a.lastAccrued = 0 := by
      intro h0
      rw [h0] at hbig
      simp at hbig
      omega
    have hint : 1 ≤ a.debt * rate * (t - a.lastAccrued) / (10000 * secondsPerYear) := by
      rw [Nat.one_le_div_iff hyear]
      exact hbig
    unfold accrueAccount
    rw [if_neg hd]
    dsimp only
    rw [if_neg hdt]
    dsimp only
    omega

/-- C3 witness: with debt 10^12, rate 800 bps and one elapsed year the debt
strictly increases, and folding the accrual over a timestamp list never
decreases it. -/
theorem C3_witness :
    (10000 * secondsPerYear ≤ 1000000000000 * 800 * (31536000 - 0) ∧
      1000000000000 < (accrueAccount 800 31536000
        { collateral := 0, debt := 1000000000000, lastAccrued := 0 }).debt) ∧
    ({ collateral := 0, debt := 1000000000000, lastAccrued := 0 : PoolAccount }).debt ≤
      (([31536000, 40000000] : List Nat).foldl (fun acc t => accrueAccount 800 t acc)
        { collateral := 0, debt := 1000000000000, lastAccrued := 0 }).debt := by
  refine ⟨⟨by decide, ?_⟩, ?_⟩
  · exact (C3_accrual_monotone 800
      { collateral := 0, debt := 1000000000000, lastAccrued := 0 }).2 31536000 (by decide)
  · exact (C3_accrual_monotone 800
      { collateral := 0, debt := 1000000000000, lastAccrued := 0 }).1 [31536000, 40000000]

/-- C10: `setParams` mutates only the risk parameters — it does not accrue any
account first — so the next `accrue` of an account whose `lastAccrued`
predates the change applies the NEW rate to the whole elapsed period,
including the part before the change. -/
theorem C10_setParams_no_accrual (p : PoolState α) (caller : α) (ltv rate : Nat)
    (hrole : p.hasRiskRole caller = true) (hltv : ltv ≤ 9000) (hrate : rate ≤ 5000)
    (p' : PoolState α)
    (hp' : p' = { p with maxLTVBps := ltv, annualRateBps := rate })
    (u : α) (tChange tNext : Nat)
    (hdebt : (p.accounts u).debt ≠ 0)
    (h0 : (p.accounts u).lastAccrued ≤ tChange) (h1 : tChange ≤ tNext)
    (h2 : (p.accounts u).lastAccrued < tNext) :
    LendingPool.setParams caller ltv rate p = .ok p' ∧
    p'.accounts = p.accounts ∧
    (accrueAccount p'.annualRateBps tNext (p'.accounts u)).debt =
      (p.accounts u).debt + (p.accounts u).debt * rate *
        (tNext - (p.accounts u).lastAccrued) / (10000 * secondsPerYear) := by
  subst hp'
  refine ⟨?_, rfl, ?_⟩
  · simp [LendingPool.setParams, hrole, Nat.not_lt.mpr hltv, Nat.not_lt.mpr hrate]
  · have hdt : ¬ tNext - (p.accounts u).lastAccrued = 0 := by omega
    dsimp only
    unfold accrueAccount
    rw [if_neg hdebt]
    dsimp only
    rw [if_neg hdt]

/-- C10 witness: changing the rate to 10% APR on `pool3b` (debt 20,
`lastAccrued = 0`) and accruing one year later applies the new rate to the
whole year. -/
theorem C10_witness :
    pool3b.hasRiskRole 2 = true ∧
    LendingPool.setParams 2 6000 1000 pool3b = .ok pool3p ∧
    pool3p.accounts = pool3b.accounts ∧
    (accrueAccount pool3p.annualRateBps 31536000 (pool3p.accounts 0)).debt =
      (pool3b.accounts 0).debt + (pool3b.accounts 0).debt * 1000 *
        (31536000 - (pool3b.accounts 0).lastAccrued) / (10000 * secondsPerYear) := by
  have h := C10_setParams_no_accrual pool3b 2 6000 1000 (by decide) (by decide)
    (by decide) pool3p rfl 0 10 31536000 (by decide) (by decide) (by decide) (by decide)
  exact ⟨by decide, h.1, h.2.1, h.2.2⟩

end AccrualClaims

section TokenOpLemmas

variable {α : Type} [DecidableEq α]

/-- A `DepositToken._update` transfer leg succeeds when both parties pass the
compliance gate and the debited balance suffices, producing the debited and
credited balance maps. -/
theorem DepositToken.update_transfer_ok (reg : RegistryState α) (now : Nat)
    (src dst : α) (v : Nat) (t : TokenState α)
    (hsrc : t.isSystemAddress src = true ∨ isKYCApproved reg now src = true)
    (hdst : t.isSystemAddress dst = true ∨ isKYCApproved reg now dst = true)
    (hbal : v ≤ t.balances src) :
    DepositToken.update reg now t (some src) (some dst) v =
      .ok { t with balances := movedBalances t.balances src dst v } := by
  have hg1 : (!t.isSystemAddress src && !isKYCApproved reg now src) = false := by
    rcases hsrc with h | h <;> simp [h]
  have hg2 : (!t.isSystemAddress dst && !isKYCApproved reg now dst) = false := by
    rcases hdst with h | h <;> simp [h]
  simp [DepositToken.update, hg1, hg2, erc20Update, Nat.not_lt.mpr hbal,
    movedBalances]

theorem DepositToken.transfer_ok (reg : RegistryState α) (now : Nat)
    (src dst : α) (v : Nat) (t : TokenState α)
    (hsrc : t.isSystemAddress src = true ∨ isKYCApproved reg now src = true)
    (hdst : t.isSystemAddress dst = true ∨ isKYCApproved reg now dst = true)
    (hbal : v ≤ t.balances src) :
    DepositToken.transfer reg now src dst v t =
      .ok { t with balances := movedBalances t.balances src dst v } :=
  DepositToken.update_transfer_ok reg now src dst v t hsrc hdst hbal

/-- `transferFrom` with sufficient allowance succeeds and moves `v` from
`owner` to `dst` (the allowance may or may not be decremented, so only the
balance-relevant fields are characterized). -/
theorem DepositToken.transferFrom_ok (reg : RegistryState α) (now : Nat)
    (spender owner dst : α) (v : Nat) (t : TokenState α)
    (howner : t.isSystemAddress owner = true ∨ isKYCApproved reg now owner = true)
    (hdst : t.isSystemAddress dst = true ∨ isKYCApproved reg now dst = true)
    (hbal : v ≤ t.balances owner)
    (hal : v ≤ t.allowance owner spender) :
    ∃ t1, DepositToken.transferFrom reg now spender owner dst v t = .ok t1 ∧
      t1.balances = movedBalances t.balances owner dst v ∧
      t1.totalSupply = t.totalSupply ∧
      t1.isSystemAddress = t.isSystemAddress ∧
      t1.hasMinterRole = t.hasMinterRole := by
  unfold DepositToken.transferFrom
  by_cases hMax : t.allowance owner spender = UINT256_MAX
  · rw [if_pos hMax]
    exact ⟨_, DepositToken.update_transfer_ok reg now owner dst v t howner hdst hbal,
      rfl, rfl, rfl, rfl⟩
  · rw [if_neg hMax, if_neg (Nat.not_lt.mpr hal)]
    dsimp only
    exact ⟨_, DepositToken.update_transfer_ok reg now owner dst v _ howner hdst hbal,
      rfl, rfl, rfl, rfl⟩

/-- A mint by a minter to a compliant or system destination succeeds when the
supply cap is respected. -/
theorem DepositToken.mint_ok (reg : RegistryState α) (now : Nat)
    (caller dst : α) (v : Nat) (t : TokenState α)
    (hrole : t.hasMinterRole caller = true)
    (hdst : t.isSystemAddress dst = true ∨ isKYCApproved reg now dst = true)
    (hcap : t.totalSupply + v ≤ UINT256_MAX) :
    DepositToken.mint reg now caller dst v t =
      .ok { t with
        balances := Function.update t.balances dst (t.balances dst + v)
        totalSupply := t.totalSupply + v } := by
  have hg : (!t.isSystemAddress dst && !isKYCApproved reg now dst) = false := by
    rcases hdst with h | h <;> simp [h]
  simp [DepositToken.mint, hrole, DepositToken.update, hg, erc20Update,
    Nat.not_lt.mpr hcap]

/-- A burn by a minter from a compliant or system source succeeds when the
balance suffices. -/
theorem DepositToken.burn_ok (reg : RegistryState α) (now : Nat)
    (caller src : α) (v : Nat) (t : TokenState α)
    (hrole : t.hasMinterRole caller = true)
    (hsrc : t.isSystemAddress src = true ∨ isKYCApproved reg now src = true)
    (hbal : v ≤ t.balances src) :
    DepositToken.burn reg now caller src v t =
      .ok { t with
        balances := Function.update t.balances src (t.balances src - v)
        totalSupply := t.totalSupply - v } := by
  have hg : (!t.isSystemAddress src && !isKYCApproved reg now src) = false := by
    rcases hsrc with h | h <;> simp [h]
  simp [DepositToken.burn, hrole, DepositToken.update, hg, erc20Update,
    Nat.not_lt.mpr hbal]

end TokenOpLemmas

section ComplianceGateClaims

variable {α : Type} [DecidableEq α]

/-- C4 counterexample: account `1` of `tokNC` is non-exempt and non-compliant
and a transfer from the (equally non-compliant, non-exempt) account `0`
credits it, yet the operation fails with `NotCompliant 0` — naming the
debited party — and not with `NotCompliant 1` as the claim requires for
`a = 1`. -/
theorem C4_counterexample :
    applyTokenOp regNC 0 (TokenOp.transfer 0 1 5) tokNC =
      .error (.NotCompliant 0) ∧
    applyTokenOp regNC 0 (TokenOp.transfer 0 1 5) tokNC ≠
      .error (.NotCompliant 1) ∧
    tokNC.isSystemAddress 1 = false ∧ isKYCApproved regNC 0 1 = false := by
  refine ⟨rfl, ?_, rfl, rfl⟩
  intro h
  rw [show applyTokenOp regNC 0 (TokenOp.transfer 0 1 5) tokNC =
    .error (.NotCompliant 0) from rfl] at h
  injection h with h1
  injection h1 with h2
  exact absurd h2 (by decide)

/-- C4 (amended): any mint, burn, or transfer — invoked with the minter role
where one is required — that credits or debits a non-exempt, non-compliant
account `a` fails with a `NotCompliant` error and commits no state change;
the error names `a` itself, except for a transfer whose debited party is
also non-exempt and non-compliant, in which case it names the debited party
(the debit check runs first). -/
theorem C4_compliance_gate (reg : RegistryState α) (now : Nat) (t : TokenState α)
    (a : α) (hs : t.isSystemAddress a = false) (hc : isKYCApproved reg now a = false) :
    (∀ c v, t.hasMinterRole c = true →
      applyTokenOp reg now (TokenOp.mint c a v) t = .error (.NotCompliant a) ∧
      stepTokenOp reg now (TokenOp.mint c a v) t = t) ∧
    (∀ c v, t.hasMinterRole c = true →
      applyTokenOp reg now (TokenOp.burn c a v) t = .error (.NotCompliant a) ∧
      stepTokenOp reg now (TokenOp.burn c a v) t = t) ∧
    (∀ b v,
      applyTokenOp reg now (TokenOp.transfer a b v) t = .error (.NotCompliant a) ∧
      stepTokenOp reg now (TokenOp.transfer a b v) t = t) ∧
    (∀ b v,
      (t.isSystemAddress b = false → isKYCApproved reg now b = false →
        applyTokenOp reg now (TokenOp.transfer b a v) t = .error (.NotCompliant b)) ∧
      (t.isSystemAddress b = true ∨ isKYCApproved reg now b = true →
        applyTokenOp reg now (TokenOp.transfer b a v) t = .error (.NotCompliant a)) ∧
      stepTokenOp reg now (TokenOp.transfer b a v) t = t) := by
  refine ⟨?_, ?_, ?_, ?_⟩
  · intro c v hrole
    have happ : applyTokenOp reg now (TokenOp.mint c a v) t = .error (.NotCompliant a) := by
      simp [applyTokenOp, DepositToken.mint, DepositToken.update, hrole, hs, hc]
    exact ⟨happ, by simp [stepTokenOp, runE, happ]⟩
  · intro c v hrole
    have happ : applyTokenOp reg now (TokenOp.burn c a v) t = .error (.NotCompliant a) := by
      simp [applyTokenOp, DepositToken.burn, DepositToken.update, hrole, hs, hc]
    exact ⟨happ, by simp [stepTokenOp, runE, happ]⟩
  · intro b v
    have happ : applyTokenOp reg now (TokenOp.transfer a b v) t =
        .error (.NotCompliant a) := by
      simp [applyTokenOp, DepositToken.transfer, DepositToken.update, hs, hc]
    exact ⟨happ, by simp [stepTokenOp, runE, happ]⟩
  · intro b v
    refine ⟨?_, ?_, ?_⟩
    · intro hsb hcb
      simp [applyTokenOp, DepositToken.transfer, DepositToken.update, hsb, hcb]
    · intro hb
      have hgate : (!t.isSystemAddress b && !isKYCApproved reg now b) = false := by
        rcases hb with h | h <;> simp [h]
      simp [applyTokenOp, DepositToken.transfer, DepositToken.update, hgate, hs, hc]
    · cases hgb : (!t.isSystemAddress b && !isKYCApproved reg now b) with
      | false =>
          have happ : applyTokenOp reg now (TokenOp.transfer b a v) t =
              .error (.NotCompliant a) := by
            simp [applyTokenOp, DepositToken.transfer, DepositToken.update, hgb, hs, hc]
          simp [stepTokenOp, runE, happ]
      | true =>
          have happ : applyTokenOp reg now (TokenOp.transfer b a v) t =
              .error (.NotCompliant b) := by
            simp [applyTokenOp, DepositToken.transfer, DepositToken.update, hgb]
          simp [stepTokenOp, runE, happ]

/-- C4 witness: in `tokNC`/`regNC` every compliance-gated operation touching
the non-exempt non-compliant account `1` fails with a `NotCompliant` error
and leaves the token state unchanged. -/
theorem C4_witness :
    tokNC.isSystemAddress 1 = false ∧ isKYCApproved regNC 0 1 = false ∧
    tokNC.hasMinterRole 0 = true ∧
    applyTokenOp regNC 0 (TokenOp.mint 0 1 5) tokNC = .error (.NotCompliant 1) ∧
    applyTokenOp regNC 0 (TokenOp.burn 0 1 5) tokNC = .error (.NotCompliant 1) ∧
    applyTokenOp regNC 0 (TokenOp.transfer 1 0 5) tokNC = .error (.NotCompliant 1) ∧
    stepTokenOp regNC 0 (TokenOp.transfer 1 0 5) tokNC = tokNC := by
  have h := C4_compliance_gate regNC 0 tokNC 1 (by decide) (by decide)
  exact ⟨by decide, by decide, by decide, (h.1 0 5 (by decide)).1,
    (h.2.1 0 5 (by decide)).1, (h.2.2.1 0 5).1, (h.2.2.1 0 5).2⟩

end ComplianceGateClaims

section LtvClaims

variable {α : Type} [DecidableEq α]

theorem borrow_ok_ltv (reg : RegistryState α) (now : Nat) (poolAddr caller : α)
    (amount : Nat) (t : TokenState α) (p : PoolState α)
    (tp : TokenState α × PoolState α)
    (hE : LendingPool.borrow reg now poolAddr caller amount t p = .ok tp) :
    (tp.2.accounts caller).debt ≤
      (tp.2.accounts caller).collateral * tp.2.maxLTVBps / 10000 := by
  unfold LendingPool.borrow at hE
  split at hE
  · exact Except.noConfusion hE
  · split at hE
    · exact Except.noConfusion hE
    · dsimp only at hE
      split at hE
      · exact Except.noConfusion hE
      · rename_i hguard
        split at hE
        · exact Except.noConfusion hE
        · injection hE with h1
          subst h1
          dsimp only
          simp only [Function.update_same]
          omega

theorem withdrawCollateral_ok_ltv (reg : RegistryState α) (now : Nat)
    (poolAddr caller : α) (amount : Nat) (t : TokenState α) (p : PoolState α)
    (tp : TokenState α × PoolState α)
    (hE : LendingPool.withdrawCollateral reg now poolAddr caller amount t p = .ok tp) :
    (tp.2.accounts caller).debt ≤
      (tp.2.accounts caller).collateral * tp.2.maxLTVBps / 10000 := by
  unfold LendingPool.withdrawCollateral at hE
  split at hE
  · exact Except.noConfusion hE
  · split at hE
    · exact Except.noConfusion hE
    · dsimp only at hE
      split at hE
      · exact Except.noConfusion hE
      · split at hE
        · exact Except.noConfusion hE
        · rename_i hcoll hguard
          split at hE
          · exact Except.noConfusion hE
          · injection hE with h1
            subst h1
            dsimp only
            simp only [Function.update_same]
            omega

/-- C1: after any successful `borrow` or `withdrawCollateral` the caller's
account satisfies `debt ≤ collateral * maxLTVBps / 10000` (truncating
division) in the committed post-operation state, with the current risk
parameters. -/
theorem C1_ltv_invariant (reg : RegistryState α) (now : Nat) (poolAddr caller : α)
    (amount : Nat) (t : TokenState α) (p : PoolState α) :
    (isOkE (LendingPool.borrow reg now poolAddr caller amount t p) = true →
      ((stepPool (LendingPool.borrow reg now poolAddr caller amount t p) t p).2.accounts
          caller).debt ≤
        ((stepPool (LendingPool.borrow reg now poolAddr caller amount t p) t p).2.accounts
          caller).collateral *
          (stepPool (LendingPool.borrow reg now poolAddr caller amount t p) t p).2.maxLTVBps /
          10000) ∧
    (isOkE (LendingPool.withdrawCollateral reg now poolAddr caller amount t p) = true →
      ((stepPool (LendingPool.withdrawCollateral reg now poolAddr caller amount t p) t
          p).2.accounts caller).debt ≤
        ((stepPool (LendingPool.withdrawCollateral reg now poolAddr caller amount t p) t
          p).2.accounts caller).collateral *
          (stepPool (LendingPool.withdrawCollateral reg now poolAddr caller amount t p) t
          p).2.maxLTVBps / 10000) := by
  constructor
  · intro hok
    rcases hE : LendingPool.borrow reg now poolAddr caller amount t p with e | tp
    · rw [hE] at hok
      exact absurd hok (by simp [isOkE])
    · dsimp only [stepPool]
      exact borrow_ok_ltv reg now poolAddr caller amount t p tp hE
  · intro hok
    rcases hE : LendingPool.withdrawCollateral reg now poolAddr caller amount t p with e | tp
    · rw [hE] at hok
      exact absurd hok (by simp [isOkE])
    · dsimp only [stepPool]
      exact withdrawCollateral_ok_ltv reg now poolAddr caller amount t p tp hE

/-- C1 witness: user `0` of `pool3` (50 collateral, 50% LTV) borrows 20, and
separately withdraws 30 collateral; both succeed and the committed states
satisfy the LTV bound. -/
theorem C1_witness :
    isOkE (LendingPool.borrow reg3 0 1 0 20 tok3 pool3) = true ∧
    ((stepPool (LendingPool.borrow reg3 0 1 0 20 tok3 pool3) tok3 pool3).2.accounts
        0).debt ≤
      ((stepPool (LendingPool.borrow reg3 0 1 0 20 tok3 pool3) tok3 pool3).2.accounts
        0).collateral *
        (stepPool (LendingPool.borrow reg3 0 1 0 20 tok3 pool3) tok3 pool3).2.maxLTVBps /
        10000 ∧
    isOkE (LendingPool.withdrawCollateral reg3 0 1 0 30 tok3 pool3) = true ∧
    ((stepPool (LendingPool.withdrawCollateral reg3 0 1 0 30 tok3 pool3) tok3
        pool3).2.accounts 0).debt ≤
      ((stepPool (LendingPool.withdrawCollateral reg3 0 1 0 30 tok3 pool3) tok3
        pool3).2.accounts 0).collateral *
        (stepPool (LendingPool.withdrawCollateral reg3 0 1 0 30 tok3 pool3) tok3
        pool3).2.maxLTVBps / 10000 := by
  have h1 := C1_ltv_invariant reg3 0 1 0 20 tok3 pool3
  have h2 := C1_ltv_invariant reg3 0 1 0 30 tok3 pool3
  exact ⟨by decide, h1.1 (by decide), by decide, h2.2 (by decide)⟩

end LtvClaims

section RepayClaims

variable {α : Type} [DecidableEq α]

/-- C5: `repay(amount)` by a compliant caller with `amount ≠ 0`: if the
post-accrual debt is zero it fails with `NoDebt`; otherwise (with enough
balance and allowance for the pull) it succeeds, pulls `amount` from the
caller, and either — when `amount ≥ debt` — zeroes the debt, stamps
`lastAccrued = now` and refunds the overpayment `amount - debt` (so the
caller nets exactly `debt` and the pool nets `+debt`), or — when
`amount < debt` — decrements the debt by exactly `amount`. -/
theorem C5_repay (reg : RegistryState α) (now : Nat) (poolAddr caller : α)
    (amount : Nat) (t : TokenState α) (p : PoolState α)
    (hkyc : isKYCApproved reg now caller = true)
    (hamt : amount ≠ 0)
    (hne : caller ≠ poolAddr)
    (hsys : t.isSystemAddress poolAddr = true)
    (A : PoolAccount)
    (hA : A = accrueAccount p.annualRateBps now (p.accounts caller)) :
    (A.debt = 0 → LendingPool.repay reg now poolAddr caller amount t p = .error .NoDebt) ∧
    (A.debt ≠ 0 → amount ≤ t.balances caller → amount ≤ t.allowance caller poolAddr →
      isOkE (LendingPool.repay reg now poolAddr caller amount t p) = true ∧
      (A.debt ≤ amount →
        (stepPool (LendingPool.repay reg now poolAddr caller amount t p) t p).2.accounts
            caller = { A with debt := 0, lastAccrued := now } ∧
        (stepPool (LendingPool.repay reg now poolAddr caller amount t p) t p).1.balances
            caller = t.balances caller - A.debt ∧
        (stepPool (LendingPool.repay reg now poolAddr caller amount t p) t p).1.balances
            poolAddr = t.balances poolAddr + A.debt) ∧
      (amount < A.debt →
        (stepPool (LendingPool.repay reg now poolAddr caller amount t p) t p).2.accounts
            caller = { A with debt := A.debt - amount } ∧
        (stepPool (LendingPool.repay reg now poolAddr caller amount t p) t p).1.balances
            caller = t.balances caller - amount ∧
        (stepPool (LendingPool.repay reg now poolAddr caller amount t p) t p).1.balances
            poolAddr = t.balances poolAddr + amount)) := by
  constructor
  · intro hz
    simp [LendingPool.repay, hkyc, hamt, ← hA, hz]
  · intro hd hbal hal
    obtain ⟨t1, hTF, hb1, hsup1, hsysEq, hmint1⟩ :=
      DepositToken.transferFrom_ok reg now poolAddr caller poolAddr amount t
        (Or.inr hkyc) (Or.inl hsys) hbal hal
    have hb1c : t1.balances caller = t.balances caller - amount := by
      rw [hb1]
      simp [movedBalances, Function.update_noteq hne, Function.update_same]
    have hb1p : t1.balances poolAddr = t.balances poolAddr + amount := by
      rw [hb1]
      simp [movedBalances, Function.update_same, Function.update_noteq (Ne.symm hne)]
    by_cases hle : A.debt ≤ amount
    · by_cases hover : 0 < amount - A.debt
      · have hT2 := DepositToken.transfer_ok reg now poolAddr caller (amount - A.debt) t1
          (Or.inl (by rw [hsysEq]; exact hsys)) (Or.inr hkyc)
          (by rw [hb1p]; omega)
        have hrep : LendingPool.repay reg now poolAddr caller amount t p =
            .ok ({ t1 with
                    balances := movedBalances t1.balances poolAddr caller (amount - A.debt) },
                 { p with
                    accounts := Function.update p.accounts caller { A with debt := 0, lastAccrued := now } }) := by
          simp [LendingPool.repay, hkyc, hamt, ← hA, hd, hTF, hle, hover, hT2]
        rw [hrep]
        dsimp only [stepPool, isOkE]
        refine ⟨rfl, fun _ => ⟨by simp [Function.update_same], ?_, ?_⟩,
          fun hlt => absurd hlt (Nat.not_lt.mpr hle)⟩
        · show movedBalances t1.balances poolAddr caller (amount - A.debt) caller =
            t.balances caller - A.debt
          simp only [movedBalances, Function.update_same, Function.update_noteq hne]
          rw [hb1c]
          omega
        · show movedBalances t1.balances poolAddr caller (amount - A.debt) poolAddr =
            t.balances poolAddr + A.debt
          simp only [movedBalances, Function.update_same,
            Function.update_noteq (Ne.symm hne)]
          rw [hb1p]
          omega
      · have hrep : LendingPool.repay reg now poolAddr caller amount t p =
            .ok (t1,
                 { p with
                    accounts := Function.update p.accounts caller { A with debt := 0, lastAccrued := now } }) := by
          simp [LendingPool.repay, hkyc, hamt, ← hA, hd, hTF, hle, hover]
        have heq : amount = A.debt := by omega
        rw [hrep]
        dsimp only [stepPool, isOkE]
        refine ⟨rfl, fun _ => ⟨by simp [Function.update_same], ?_, ?_⟩,
          fun hlt => absurd hlt (Nat.not_lt.mpr hle)⟩
        · rw [hb1c, heq]
        · rw [hb1p, heq]
    · have hrep : LendingPool.repay reg now poolAddr caller amount t p =
          .ok (t1,
               { p with
                  accounts := Function.update p.accounts caller { A with debt := A.debt - amount } }) := by
        simp [LendingPool.repay, hkyc, hamt, ← hA, hd, hTF, hle]
      rw [hrep]
      dsimp only [stepPool, isOkE]
      exact ⟨rfl, fun h => absurd h hle,
        fun _ => ⟨by simp [Function.update_same], hb1c, hb1p⟩⟩

/-- C5 witness: user `0` (balance 100, debt 20 after accrual) repays 25: the
call succeeds, the debt becomes 0 with `lastAccrued` stamped, and the net
token movement is 20 — the 5-unit overpayment is refunded. -/
theorem C5_witness :
    isKYCApproved reg3 0 0 = true ∧ (25 : Nat) ≠ 0 ∧
    tok3.isSystemAddress 1 = true ∧
    ({ collateral := 50, debt := 20, lastAccrued := 0 : PoolAccount } =
      accrueAccount pool3b.annualRateBps 0 (pool3b.accounts 0)) ∧
    isOkE (LendingPool.repay reg3 0 1 0 25 tok3 pool3b) = true ∧
    (stepPool (LendingPool.repay reg3 0 1 0 25 tok3 pool3b) tok3 pool3b).2.accounts 0 =
      { collateral := 50, debt := 0, lastAccrued := 0 } ∧
    (stepPool (LendingPool.repay reg3 0 1 0 25 tok3 pool3b) tok3 pool3b).1.balances 0 =
      tok3.balances 0 - 20 ∧
    (stepPool (LendingPool.repay reg3 0 1 0 25 tok3 pool3b) tok3 pool3b).1.balances 1 =
      tok3.balances 1 + 20 := by
  have h := C5_repay reg3 0 1 0 25 tok3 pool3b (by decide) (by decide) (by decide)
    (by decide) { collateral := 50, debt := 20, lastAccrued := 0 } (by decide)
  have h2 := h.2 (by decide) (by decide) (by decide)
  have h3 := h2.2.1 (by decide)
  exact ⟨by decide, by decide, by decide, by decide, h2.1, h3.1, h3.2.1, h3.2.2⟩

end RepayClaims

section VaultClaims

variable {α : Type} [DecidableEq α]

/-- C6: when the external payout in `BankVault.withdraw` fails, the whole
call fails with `PayoutFailed` and the committed state is unchanged — the
burn does not persist: all balances and `totalSupply` are as before. -/
theorem C6_withdraw_atomic (reg : RegistryState α) (now : Nat) (vaultAddr caller : α)
    (amount : Nat) (w : VaultWorld α)
    (hkyc : isKYCApproved reg now caller = true)
    (hamt : amount ≠ 0)
    (hrole : w.tok.hasMinterRole vaultAddr = true)
    (hbal : amount ≤ w.tok.balances caller) :
    BankVault.withdraw reg now vaultAddr caller amount false w = .error .PayoutFailed ∧
    runE (BankVault.withdraw reg now vaultAddr caller amount false) w = w ∧
    (runE (BankVault.withdraw reg now vaultAddr caller amount false) w).tok.balances =
      w.tok.balances ∧
    (runE (BankVault.withdraw reg now vaultAddr caller amount false) w).tok.totalSupply =
      w.tok.totalSupply := by
  have hburn := DepositToken.burn_ok reg now vaultAddr caller amount w.tok hrole
    (Or.inr hkyc) hbal
  have herr : BankVault.withdraw reg now vaultAddr caller amount false w =
      .error .PayoutFailed := by
    simp [BankVault.withdraw, hkyc, hamt, hburn]
  refine ⟨herr, ?_, ?_, ?_⟩ <;> simp [runE, herr]

/-- C6 witness: user `0` (compliant, balance 100) withdraws 50 while the
payout is refused: the call fails with `PayoutFailed` and the state is
unchanged. -/
theorem C6_witness :
    isKYCApproved reg3 0 0 = true ∧ (50 : Nat) ≠ 0 ∧
    w3.tok.hasMinterRole 1 = true ∧ 50 ≤ w3.tok.balances 0 ∧
    BankVault.withdraw reg3 0 1 0 50 false w3 = .error .PayoutFailed ∧
    runE (BankVault.withdraw reg3 0 1 0 50 false) w3 = w3 := by
  have h := C6_withdraw_atomic reg3 0 1 0 50 w3 (by decide) (by decide) (by decide)
    (by decide)
  exact ⟨by decide, by decide, by decide, by decide, h.1, h.2.1⟩

/-- C9: a compliant caller depositing `X > 0` and immediately withdrawing `X`
(with the payout accepted) returns the caller's external balance, the
caller's ledger balance, the vault reserve, and `totalSupply` to their
pre-deposit values. -/
theorem C9_roundtrip (reg : RegistryState α) (now : Nat) (vaultAddr caller : α)
    (X : Nat) (w : VaultWorld α)
    (hkyc : isKYCApproved reg now caller = true)
    (hX : X ≠ 0)
    (heth : X ≤ w.eth caller)
    (hrole : w.tok.hasMinterRole vaultAddr = true)
    (hcap : w.tok.totalSupply + X ≤ UINT256_MAX) :
    isOkE (BankVault.deposit reg now vaultAddr caller X w) = true ∧
    isOkE (BankVault.withdraw reg now vaultAddr caller X true
      (runE (BankVault.deposit reg now vaultAddr caller X) w)) = true ∧
    (roundTrip reg now vaultAddr caller X w).eth caller = w.eth caller ∧
    (roundTrip reg now vaultAddr caller X w).tok.balances caller =
      w.tok.balances caller ∧
    (roundTrip reg now vaultAddr caller X w).tok.totalSupply = w.tok.totalSupply ∧
    (roundTrip reg now vaultAddr caller X w).vaultEth = w.vaultEth := by
  have hmint := DepositToken.mint_ok reg now vaultAddr caller X w.tok hrole
    (Or.inr hkyc) hcap
  have hdep : BankVault.deposit reg now vaultAddr caller X w =
      .ok { tok :=
              { w.tok with
                  balances := Function.update w.tok.balances caller (w.tok.balances caller + X)
                  totalSupply := w.tok.totalSupply + X }
            eth := Function.update w.eth caller (w.eth caller - X)
            vaultEth := w.vaultEth + X } := by
    simp [BankVault.deposit, Nat.not_lt.mpr heth, hkyc, hX, hmint]
  have hbal1 : X ≤ (Function.update w.tok.balances caller (w.tok.balances caller + X)) caller := by
    simp [Function.update_same]
  have hburn := DepositToken.burn_ok reg now vaultAddr caller X
    { w.tok with
        balances := Function.update w.tok.balances caller (w.tok.balances caller + X)
        totalSupply := w.tok.totalSupply + X }
    hrole (Or.inr hkyc) hbal1
  refine ⟨by simp [isOkE, hdep], ?_, ?_, ?_, ?_, ?_⟩ <;>
    simp [roundTrip, runE, hdep, BankVault.withdraw, hkyc, hX, hburn, isOkE,
      Nat.le_add_left, Function.update_same] <;>
    omega

/-- C9 witness: user `0` (500 wei, ledger balance 100) deposits 100 wei and
immediately withdraws 100: external balance, ledger balance and supply all
return to their pre-deposit values. -/
theorem C9_witness :
    isKYCApproved reg3 0 0 = true ∧ (100 : Nat) ≠ 0 ∧ 100 ≤ w3.eth 0 ∧
    w3.tok.hasMinterRole 1 = true ∧ w3.tok.totalSupply + 100 ≤ UINT256_MAX ∧
    (roundTrip reg3 0 1 0 100 w3).eth 0 = w3.eth 0 ∧
    (roundTrip reg3 0 1 0 100 w3).tok.balances 0 = w3.tok.balances 0 ∧
    (roundTrip reg3 0 1 0 100 w3).tok.totalSupply = w3.tok.totalSupply := by
  have h := C9_roundtrip reg3 0 1 0 100 w3 (by decide) (by decide) (by decide)
    (by decide) (by decide)
  exact ⟨by decide, by decide, by decide, by decide, by decide,
    h.2.2.1, h.2.2.2.1, h.2.2.2.2.1⟩

end VaultClaims
